import Mathlib

/-
  Shallow embedding of src/src/wavm.cpp (hera's WAVM execution bridge).

  The embedding models the bridge itself; the external collaborators (the
  WAVM engine's parser/linker/instantiator and the EthereumInterface (EEI)
  semantics) are out of scope for the bridge and enter as parameters:
  an ExecParams record says how each collaborator call turns out, and the
  bridge code is translated as a function of those outcomes and of the
  process-wide mutable state in namespace wavm_host_module (the interface
  stack, exceptionIdx and exceptionString globals of wavm.cpp lines 86-91).

  C++ exception propagation is modelled by returning an ExecOutcome:
  a hera exception of a given kind escaping a function is the value
  ExecOutcome.heraError kind msg; a fatal engine assertion (wavmAssert
  inside asMemory on a null object) is ExecOutcome.fatalAssert.

  The macros heraAssert and ensureCondition come from exceptions.h, which
  is not part of this repository snapshot; they are modelled from the spec
  (see heraAssert below).
-/

namespace hera

/-- The exception discriminants of wavm.cpp line 89
(enum class HeraExceptionsEnum). -/
inductive HeraExceptionsEnum where
  | None
  | InternalErrorException
  | VMTrap
  | ArgumentOutOfRange
  | OutOfGas
  | ContractValidationFailure
  | InvalidMemoryAccess
  | EndExecution
  | StaticModeViolation
deriving DecidableEq, Repr

/-- A WAVM linear-memory instance: page count plus byte contents
(Runtime::MemoryInstance, as the bridge sees it). -/
structure MemoryInstance where
  numPages : Nat
  data : List Nat
deriving DecidableEq, Repr

/-- Outcome of one Memory Bridge operation (wavm.cpp lines 71-73).
nullDeref is the undefined behavior of dereferencing a cleared (null)
handle; refused would be a guarded rejection that leaves the handle
untouched (the behavior the spec asks for); trap is the engine bounds
check firing inside Runtime::memoryArrayPtr. -/
inductive MemOutcome where
  | ok (v : Nat)
  | stored (m : MemoryInstance)
  | refused
  | nullDeref
  | trap
deriving DecidableEq, Repr

/-- WavmEthereumInterface::memorySize (wavm.cpp line 71):
Runtime::getMemoryNumPages(m_wasmMemory) * 65536, with no null check on
the handle. -/
def memorySize (m : Option MemoryInstance) : MemOutcome :=
  match m with
  | none => .nullDeref
  | some mem => .ok (mem.numPages * 65536)

/-- WavmEthereumInterface::memoryGet (wavm.cpp line 73):
Runtime::memoryArrayPtr<U8>(m_wasmMemory, offset, 1), engine
bounds-checked, with no null check on the handle. -/
def memoryGet (m : Option MemoryInstance) (offset : Nat) : MemOutcome :=
  match m with
  | none => .nullDeref
  | some mem =>
      if offset + 1 ≤ mem.numPages * 65536 then .ok (mem.data.getD offset 0)
      else .trap

/-- WavmEthereumInterface::memorySet (wavm.cpp line 72): bounds-checked
single-byte store, with no null check on the handle. -/
def memorySet (m : Option MemoryInstance) (offset : Nat) (value : Nat) : MemOutcome :=
  match m with
  | none => .nullDeref
  | some mem =>
      if offset + 1 ≤ mem.numPages * 65536 then
        .stored { mem with data := mem.data.set offset value }
      else .trap

/-- The per-invocation interface instance, as far as the bridge mutates
it: the nullable linear-memory handle m_wasmMemory (wavm.cpp line 75). -/
structure WavmEthereumInterface where
  wasmMemory : Option MemoryInstance := none
deriving DecidableEq, Repr

/-- The process-wide mutable state of namespace wavm_host_module
(wavm.cpp lines 86-91): the reentrancy stack of interface instances and
the pending-exception slot (exceptionIdx, exceptionString). -/
structure HostModuleState where
  interface : List WavmEthereumInterface
  exceptionIdx : HeraExceptionsEnum
  exceptionString : String
deriving DecidableEq, Repr

/-- The state with an empty stack and a clear slot (process start). -/
def emptyHostState : HostModuleState :=
  { interface := [], exceptionIdx := .None, exceptionString := "" }

/-- How one EthereumInterface operation terminates: it either returns
normally or raises a hera exception of some kind with a message.  The
EEI semantics are an external collaborator, so this is a parameter of
each host call. -/
inductive EEISignal where
  | ret
  | throws (kind : HeraExceptionsEnum) (msg : String)
deriving DecidableEq, Repr

/-- One call the contract makes into the Host Function Table, tagged with
how the underlying EEI operation turns out (wavm.cpp lines 99-203). -/
inductive HostCall where
  | useGas (sig : EEISignal)
  | getAddress (sig : EEISignal)
  | call (sig : EEISignal)
  | callDataCopy (sig : EEISignal)
  | getCallDataSize (sig : EEISignal)
  | getGasLeft (sig : EEISignal)
  | storageStore (sig : EEISignal)
  | storageLoad (sig : EEISignal)
  | codeCopy (sig : EEISignal)
  | getCodeSize (sig : EEISignal)
  | finish (sig : EEISignal)
  | revert (sig : EEISignal)
  | getReturnDataSize (sig : EEISignal)
  | returnDataCopy (sig : EEISignal)
deriving DecidableEq, Repr

/-- What the exported main function does when invoked: return normally,
trap inside the engine (stack overflow, unreachable, out-of-bounds
access in module code), or make a host call and continue if that call
returns. -/
inductive MainBehavior where
  | returns
  | trapsInEngine
  | callsHost (c : HostCall) (rest : MainBehavior)
deriving DecidableEq, Repr

/-- How control leaves one host-function adapter. -/
inductive HostStep where
  | continued
  | wavmTrap
  | heraThrown (kind : HeraExceptionsEnum) (msg : String)
deriving DecidableEq, Repr

namespace wavm_host_module

/-- interface.top()->nullWasmMemory(): clear the memory handle of the top
interface instance (no-op iff the stack is empty, which the lifecycle
ordering prevents). -/
def nullWasmMemoryTop (st : HostModuleState) : HostModuleState :=
  { st with interface :=
      match st.interface with
      | [] => []
      | i :: rest => { i with wasmMemory := none } :: rest }

/-- interface.top()->setWasmMemory(mem) (wavm.cpp line 332). -/
def setWasmMemoryTop (mem : MemoryInstance) (st : HostModuleState) : HostModuleState :=
  { st with interface :=
      match st.interface with
      | [] => []
      | i :: rest => { i with wasmMemory := some mem } :: rest }

/-- interface.push(&interface) (wavm.cpp line 294): a fresh interface
instance is pushed; its m_wasmMemory is not yet set. -/
def pushInterface (st : HostModuleState) : HostModuleState :=
  { st with interface := ({ wasmMemory := none } : WavmEthereumInterface) :: st.interface }

/-- interface.pop() (wavm.cpp line 378). -/
def popInterface (st : HostModuleState) : HostModuleState :=
  { st with interface := st.interface.tail }

/-- A host-function adapter with no try/catch (useGas, getAddress, call,
callDataCopy, getCallDataSize, getGasLeft, storageStore, storageLoad,
codeCopy, getCodeSize, getReturnDataSize, returnDataCopy; wavm.cpp lines
99-159 and 194-203): the EEI call either returns, or its exception
escapes the adapter natively into engine-owned control flow. -/
def plainCall (sig : EEISignal) (st : HostModuleState) : HostStep × HostModuleState :=
  match sig with
  | .ret => (.continued, st)
  | .throws k msg => (.heraThrown k msg, st)

/-- The finish adapter (wavm.cpp lines 162-175): it catches only
InvalidMemoryAccess; on catching it, it writes the kind and message into
the slot, clears the top memory handle, and forces a WAVM trap
(throwException).  Any other exception escapes natively. -/
def finish (sig : EEISignal) (st : HostModuleState) : HostStep × HostModuleState :=
  match sig with
  | .ret => (.continued, st)
  | .throws k msg =>
      if k = .InvalidMemoryAccess then
        let st1 := { st with exceptionIdx := .InvalidMemoryAccess, exceptionString := msg }
        (.wavmTrap, nullWasmMemoryTop st1)
      else
        (.heraThrown k msg, st)

/-- The revert adapter (wavm.cpp lines 178-191): identical bridging to
finish. -/
def revert (sig : EEISignal) (st : HostModuleState) : HostStep × HostModuleState :=
  match sig with
  | .ret => (.continued, st)
  | .throws k msg =>
      if k = .InvalidMemoryAccess then
        let st1 := { st with exceptionIdx := .InvalidMemoryAccess, exceptionString := msg }
        (.wavmTrap, nullWasmMemoryTop st1)
      else
        (.heraThrown k msg, st)

/-- Dispatch one host call to its adapter. -/
def runHostCall : HostCall → HostModuleState → HostStep × HostModuleState
  | .useGas sig, st => plainCall sig st
  | .getAddress sig, st => plainCall sig st
  | .call sig, st => plainCall sig st
  | .callDataCopy sig, st => plainCall sig st
  | .getCallDataSize sig, st => plainCall sig st
  | .getGasLeft sig, st => plainCall sig st
  | .storageStore sig, st => plainCall sig st
  | .storageLoad sig, st => plainCall sig st
  | .codeCopy sig, st => plainCall sig st
  | .getCodeSize sig, st => plainCall sig st
  | .finish sig, st => finish sig st
  | .revert sig, st => revert sig st
  | .getReturnDataSize sig, st => plainCall sig st
  | .returnDataCopy sig, st => plainCall sig st

/-- HeraWavmResolver::resolve (wavm.cpp lines 213-223): look the module
up by name in moduleNameToInstanceMap, then the export up by name in
that instance; the expected type argument is ignored; resolution
succeeds iff a non-null export object was found.  A module instance is
modelled by its export-name list. -/
def HeraWavmResolver.resolve (moduleNameToInstanceMap : List (String × List String))
    (moduleName : String) (exportName : String) : Bool :=
  match moduleNameToInstanceMap.lookup moduleName with
  | none => false
  | some exps => exps.contains exportName

end wavm_host_module

/-- The caller-visible result record accumulated by the EEI (eei.h); the
bridge itself never writes its fields, so its content is a parameter of
the invocation. -/
structure ExecutionResult where
  returnValue : List Nat := []
  gasLeft : Int := 0
  isRevert : Bool := false
deriving DecidableEq, Repr

/-- How one call of execute terminates toward its caller: a returned
result, a hera exception of a given kind and message propagating out, or
a fatal engine assertion (abort). -/
inductive ExecOutcome where
  | success (r : ExecutionResult)
  | heraError (kind : HeraExceptionsEnum) (msg : String)
  | fatalAssert (msg : String)
deriving DecidableEq, Repr

/-- How WASM::serialize on the input bytecode turns out (wavm.cpp lines
298-309): success, or one of the three exception types the bridge
catches. -/
inductive ParseOutcome where
  | ok
  | fatalSerializationException (msg : String)
  | validationException (msg : String)
  | badAlloc
deriving DecidableEq, Repr

/-- The collaborator outcomes that parametrize one invocation: how the
parse goes, whether the engine-side instantiation and linking steps
succeed, whether the module exports a linear memory named "memory" and a
function named "main", what main does when invoked, and the result
record the EEI accumulated. -/
structure ExecParams where
  parse : ParseOutcome
  hostModuleOk : Bool
  linkOk : Bool
  instantiateOk : Bool
  memoryExport : Option MemoryInstance
  hasMain : Bool
  mainBehavior : MainBehavior
  eeiResult : ExecutionResult := {}
deriving DecidableEq, Repr

/-- Modelled from the spec: the heraAssert macro of exceptions.h (not in
this repository snapshot).  Its failure is a programming-invariant
violation, fatal and not a contract error, i.e. it raises
InternalErrorException (spec sections 4.4 step 3 and 7).  Returns the
outcome of a failed heraAssert with the given message. -/
def heraAssertFail (msg : String) : ExecOutcome :=
  .heraError .InternalErrorException msg

/-- Modelled from the spec: the ensureCondition macro of exceptions.h
(not in this repository snapshot): on a false condition it raises a hera
exception of the named kind with the given message (spec section 7).
Returns the outcome of a failed ensureCondition. -/
def ensureConditionFail (kind : HeraExceptionsEnum) (msg : String) : ExecOutcome :=
  .heraError kind msg

/-- Run the invoked main function against the host adapters, threading
the wavm_host_module state.  HostStep.continued at top level means main
returned normally. -/
def runMain : MainBehavior → HostModuleState → HostStep × HostModuleState
  | .returns, st => (.continued, st)
  | .trapsInEngine, st => (.wavmTrap, st)
  | .callsHost c rest, st =>
      match wavm_host_module.runHostCall c st with
      | (.continued, st1) => runMain rest st1
      | (o, st1) => (o, st1)

/-- How control leaves the protected invoke region. -/
inductive InvokeOutcome where
  | completed
  | heraEscape (kind : HeraExceptionsEnum) (msg : String)
deriving DecidableEq, Repr

/-- The protected invoke region (wavm.cpp lines 349-367):
Runtime::catchRuntimeExceptions around a try/catch of EndExecution
around invokeFunctionChecked.  EndExecution is swallowed as success; a
WAVM trap reaches the handler, which writes VMTrap into the slot only if
the slot is still clear; any other hera exception escapes both layers. -/
def invokeStage (mb : MainBehavior) (st : HostModuleState) : InvokeOutcome × HostModuleState :=
  match runMain mb st with
  | (.continued, st1) => (.completed, st1)
  | (.wavmTrap, st1) =>
      if st1.exceptionIdx = .None then
        (.completed, { st1 with exceptionIdx := .VMTrap })
      else
        (.completed, st1)
  | (.heraThrown k msg, st1) =>
      if k = .EndExecution then (.completed, st1)
      else (.heraEscape k msg, st1)

/-- WavmEngine::internalExecute (wavm.cpp lines 279-381).  Stages, in
source order: push a fresh interface instance (294); parse (297-309);
heraAssert the host module (319-320); heraAssert the link result (325);
heraAssert module instantiation (328-329); bind the "memory" export to
the top interface via asMemory, which fatally asserts on a null export
(332); ensureCondition that "main" exists (335-336); protected invoke
(349-367); teardown, clearing the memory handle and popping the stack
(376-378).  A hera exception thrown at any stage escapes the function
immediately, skipping the later stages, teardown included. -/
def internalExecute (p : ExecParams) (st0 : HostModuleState) : ExecOutcome × HostModuleState :=
  let st := wavm_host_module.pushInterface st0
  match p.parse with
  | .fatalSerializationException m =>
      (ensureConditionFail .ContractValidationFailure ("Failed to deserialise contract: " ++ m), st)
  | .validationException m =>
      (ensureConditionFail .ContractValidationFailure ("Failed to validate contract: " ++ m), st)
  | .badAlloc =>
      (ensureConditionFail .ContractValidationFailure "Bug in wavm: didn't check bounds before allocation", st)
  | .ok =>
      if p.hostModuleOk then
        if p.linkOk then
          if p.instantiateOk then
            match p.memoryExport with
            | none => (.fatalAssert "asMemory: null object", st)
            | some mem =>
                let st1 := wavm_host_module.setWasmMemoryTop mem st
                if p.hasMain then
                  match invokeStage p.mainBehavior st1 with
                  | (.heraEscape k m, st2) => (.heraError k m, st2)
                  | (.completed, st2) =>
                      let st3 := wavm_host_module.popInterface
                        (wavm_host_module.nullWasmMemoryTop st2)
                      (.success p.eeiResult, st3)
                else
                  (ensureConditionFail .ContractValidationFailure "\"main\" not found", st1)
          else (heraAssertFail "Couldn't instantiate contact module.", st)
        else (heraAssertFail "Couldn't link contract against host module.", st)
      else (heraAssertFail "Failed to create host module.", st)

/-- Clear the pending-exception slot (wavm.cpp lines 236-237 and
252-253). -/
def clearExceptions (st : HostModuleState) : HostModuleState :=
  { st with exceptionIdx := .None, exceptionString := "" }

/-- WavmEngine::execute (wavm.cpp lines 227-277): clear the slot, run
internalExecute, then, if internalExecute returned normally and the slot
is set, clear the slot and re-raise a hera exception of the captured
kind with the fixed message of the re-throw switch (lines 249-274).  An
exception escaping internalExecute propagates out of execute unchanged,
skipping the re-raise block. -/
def execute (p : ExecParams) (st0 : HostModuleState) : ExecOutcome × HostModuleState :=
  let st1 := clearExceptions st0
  match internalExecute p st1 with
  | (.success r, st2) =>
      if st2.exceptionIdx = .None then
        (.success r, st2)
      else
        (.heraError st2.exceptionIdx "hera exception re-thrown", clearExceptions st2)
  | (o, st2) => (o, st2)

/-- The EEI signal of a host call. -/
def HostCall.sig : HostCall → EEISignal
  | .useGas s => s
  | .getAddress s => s
  | .call s => s
  | .callDataCopy s => s
  | .getCallDataSize s => s
  | .getGasLeft s => s
  | .storageStore s => s
  | .storageLoad s => s
  | .codeCopy s => s
  | .getCodeSize s => s
  | .finish s => s
  | .revert s => s
  | .getReturnDataSize s => s
  | .returnDataCopy s => s

/-- Behaviors of main in which control, after a prefix of host calls
that all return normally, reaches a finish or revert call whose EEI
operation raises InvalidMemoryAccess with the given message. -/
inductive CapturesIMA : MainBehavior → String → Prop
  | finishHere (msg : String) (rest : MainBehavior) :
      CapturesIMA (.callsHost (.finish (.throws .InvalidMemoryAccess msg)) rest) msg
  | revertHere (msg : String) (rest : MainBehavior) :
      CapturesIMA (.callsHost (.revert (.throws .InvalidMemoryAccess msg)) rest) msg
  | step (c : HostCall) (rest : MainBehavior) (msg : String) :
      c.sig = .ret → CapturesIMA rest msg → CapturesIMA (.callsHost c rest) msg

/-- Is this host call handled by the finish or revert adapter, the only
two adapters with a try/catch? -/
def HostCall.isFinishOrRevert : HostCall → Bool
  | .finish _ => true
  | .revert _ => true
  | _ => false

/-- Behaviors of main in which control, after a prefix of host calls
that all return normally, reaches a host call whose EEI operation raises
an error of kind k with message msg that the adapter lets escape
natively: an error of any kind under one of the twelve plain adapters
(they have no try/catch), or an error of any kind other than
InvalidMemoryAccess under finish or revert (their catch covers only
InvalidMemoryAccess). -/
inductive EscapesNatively : MainBehavior → HeraExceptionsEnum → String → Prop
  | plainHere (c : HostCall) (k : HeraExceptionsEnum) (msg : String)
      (rest : MainBehavior) :
      c.sig = .throws k msg → c.isFinishOrRevert = false →
      EscapesNatively (.callsHost c rest) k msg
  | finishHere (k : HeraExceptionsEnum) (msg : String) (rest : MainBehavior) :
      k ≠ .InvalidMemoryAccess →
      EscapesNatively (.callsHost (.finish (.throws k msg)) rest) k msg
  | revertHere (k : HeraExceptionsEnum) (msg : String) (rest : MainBehavior) :
      k ≠ .InvalidMemoryAccess →
      EscapesNatively (.callsHost (.revert (.throws k msg)) rest) k msg
  | step (c : HostCall) (rest : MainBehavior) (k : HeraExceptionsEnum) (msg : String) :
      c.sig = .ret → EscapesNatively rest k msg →
      EscapesNatively (.callsHost c rest) k msg

/-- A fully healthy invocation whose main just returns; concrete inputs
below are variants of it. -/
def pBase : ExecParams :=
  { parse := .ok, hostModuleOk := true, linkOk := true, instantiateOk := true,
    memoryExport := some { numPages := 1, data := [] }, hasMain := true,
    mainBehavior := .returns }

/-- Invocation in which the contract calls finish and the EEI raises
InvalidMemoryAccess with message "boom". -/
def pFinishIMA : ExecParams :=
  { pBase with mainBehavior := .callsHost (.finish (.throws .InvalidMemoryAccess "boom")) .returns }

/-- Invocation whose bytecode fails to deserialise. -/
def pMalformed : ExecParams :=
  { pBase with parse := .fatalSerializationException "unexpected end" }

/-- Invocation whose bytecode fails validation. -/
def pInvalid : ExecParams :=
  { pBase with parse := .validationException "bad section" }

/-- Invocation in which the contract calls useGas and the EEI raises
OutOfGas. -/
def pOutOfGas : ExecParams :=
  { pBase with mainBehavior := .callsHost (.useGas (.throws .OutOfGas "Ran out of gas")) .returns }

/-- Invocation whose module fails to link against the host module. -/
def pLinkFail : ExecParams :=
  { pBase with linkOk := false }

/-- Invocation whose module exports "main" but no linear memory named
"memory". -/
def pNoMemoryExport : ExecParams :=
  { pBase with memoryExport := none }

/-- Invocation in which the contract calls finish and the EEI signals
the benign EndExecution unwind. -/
def pEndExecution : ExecParams :=
  { pBase with mainBehavior := .callsHost (.finish (.throws .EndExecution "executionFinished")) .returns }

/-- Invocation whose module code traps inside the engine. -/
def pEngineTrap : ExecParams :=
  { pBase with mainBehavior := .trapsInEngine }

/-- Invocation in which the contract calls revert and the EEI raises
InvalidMemoryAccess with message "oob revert". -/
def pRevertIMA : ExecParams :=
  { pBase with mainBehavior := .callsHost (.revert (.throws .InvalidMemoryAccess "oob revert")) .returns }

/-- A host call whose EEI operation returns normally continues with the
state unchanged. -/
theorem runHostCall_ret (c : HostCall) (st : HostModuleState) (h : c.sig = .ret) :
    wavm_host_module.runHostCall c st = (.continued, st) := by
  cases c <;> rename_i s <;> simp only [HostCall.sig] at h <;> subst h <;> rfl

/-- A single host call either leaves the pending-exception slot as it
was or writes InvalidMemoryAccess into it. -/
theorem runHostCall_slot (c : HostCall) (st : HostModuleState) :
    (wavm_host_module.runHostCall c st).2.exceptionIdx = st.exceptionIdx ∨
    (wavm_host_module.runHostCall c st).2.exceptionIdx = .InvalidMemoryAccess := by
  cases c <;> rename_i s <;> cases s <;>
    simp only [wavm_host_module.runHostCall, wavm_host_module.plainCall,
      wavm_host_module.finish, wavm_host_module.revert,
      wavm_host_module.nullWasmMemoryTop] <;>
    first
      | exact Or.inl trivial
      | (split <;> simp)

/-- Running main either leaves the pending-exception slot as it was or
writes InvalidMemoryAccess into it. -/
theorem runMain_slot (mb : MainBehavior) (st : HostModuleState) :
    (runMain mb st).2.exceptionIdx = st.exceptionIdx ∨
    (runMain mb st).2.exceptionIdx = .InvalidMemoryAccess := by
  induction mb generalizing st with
  | returns => exact Or.inl rfl
  | trapsInEngine => exact Or.inl rfl
  | callsHost c rest ih =>
      rcases hc : wavm_host_module.runHostCall c st with ⟨o, st1⟩
      have hslot := runHostCall_slot c st
      rw [hc] at hslot
      cases o with
      | continued =>
          have : runMain (.callsHost c rest) st = runMain rest st1 := by
            simp [runMain, hc]
          rw [this]
          rcases ih st1 with h | h
          · rw [h]; exact hslot
          · exact Or.inr h
      | wavmTrap =>
          have : runMain (.callsHost c rest) st = (.wavmTrap, st1) := by
            simp [runMain, hc]
          rw [this]; exact hslot
      | heraThrown k m =>
          have : runMain (.callsHost c rest) st = (.heraThrown k m, st1) := by
            simp [runMain, hc]
          rw [this]; exact hslot

/-- Running a main behavior that reaches a finish or revert call raising
InvalidMemoryAccess ends in a forced engine trap, with the slot holding
the captured kind and message and the top memory handle cleared. -/
theorem runMain_capturesIMA (mb : MainBehavior) (msg : String)
    (h : CapturesIMA mb msg) (st : HostModuleState) :
    runMain mb st =
      (.wavmTrap, wavm_host_module.nullWasmMemoryTop
        { st with exceptionIdx := .InvalidMemoryAccess, exceptionString := msg }) := by
  induction h generalizing st with
  | finishHere msg rest =>
      simp [runMain, wavm_host_module.runHostCall, wavm_host_module.finish]
  | revertHere msg rest =>
      simp [runMain, wavm_host_module.runHostCall, wavm_host_module.revert]
  | step c rest msg hret _ ih =>
      rw [show runMain (.callsHost c rest) st = runMain rest st by
        simp [runMain, runHostCall_ret c st hret]]
      exact ih st

/-- The invoke stage, entered with a clear slot, leaves the slot clear,
or holding InvalidMemoryAccess (finish/revert capture), or holding
VMTrap (the trap handler). -/
theorem invokeStage_slot (mb : MainBehavior) (st : HostModuleState)
    (h : st.exceptionIdx = .None) :
    (invokeStage mb st).2.exceptionIdx = .None ∨
    (invokeStage mb st).2.exceptionIdx = .InvalidMemoryAccess ∨
    (invokeStage mb st).2.exceptionIdx = .VMTrap := by
  have hrm := runMain_slot mb st
  rw [h] at hrm
  rcases hr : runMain mb st with ⟨o, st1⟩
  rw [hr] at hrm
  cases o with
  | continued =>
      simp only [invokeStage, hr]
      tauto
  | wavmTrap =>
      simp only [invokeStage, hr]
      split
      · simp
      · tauto
  | heraThrown k m =>
      simp only [invokeStage, hr]
      split <;> tauto

/-- When parsing, host-module creation, linking, module instantiation,
the memory export and the main export all succeed, internalExecute is
the protected invoke followed by teardown. -/
theorem internalExecute_setup (p : ExecParams) (st0 : HostModuleState)
    (mem : MemoryInstance)
    (hp : p.parse = .ok) (hh : p.hostModuleOk = true) (hl : p.linkOk = true)
    (hi : p.instantiateOk = true) (hm : p.memoryExport = some mem)
    (hmain : p.hasMain = true) :
    internalExecute p st0 =
      (match invokeStage p.mainBehavior
          (wavm_host_module.setWasmMemoryTop mem (wavm_host_module.pushInterface st0)) with
        | (.heraEscape k m, st2) => (.heraError k m, st2)
        | (.completed, st2) =>
            (.success p.eeiResult,
              wavm_host_module.popInterface (wavm_host_module.nullWasmMemoryTop st2))) := by
  simp [internalExecute, hp, hh, hl, hi, hm, hmain]

/-- internalExecute, entered with a clear slot, leaves the slot clear or
holding InvalidMemoryAccess or VMTrap, on every exit path. -/
theorem internalExecute_slot (p : ExecParams) (st : HostModuleState)
    (h : st.exceptionIdx = .None) :
    (internalExecute p st).2.exceptionIdx = .None ∨
    (internalExecute p st).2.exceptionIdx = .InvalidMemoryAccess ∨
    (internalExecute p st).2.exceptionIdx = .VMTrap := by
  have hpush : (wavm_host_module.pushInterface st).exceptionIdx = .None := h
  cases hp : p.parse with
  | fatalSerializationException m =>
      simp only [internalExecute, hp]
      exact Or.inl hpush
  | validationException m =>
      simp only [internalExecute, hp]
      exact Or.inl hpush
  | badAlloc =>
      simp only [internalExecute, hp]
      exact Or.inl hpush
  | ok =>
    cases hh : p.hostModuleOk with
    | false =>
        simp only [internalExecute, hp, hh, Bool.false_eq_true, if_false]
        exact Or.inl hpush
    | true =>
      cases hl : p.linkOk with
      | false =>
          simp only [internalExecute, hp, hh, hl, if_true, Bool.false_eq_true, if_false]
          exact Or.inl hpush
      | true =>
        cases hi : p.instantiateOk with
        | false =>
            simp only [internalExecute, hp, hh, hl, hi, if_true, Bool.false_eq_true, if_false]
            exact Or.inl hpush
        | true =>
          cases hm : p.memoryExport with
          | none =>
              simp only [internalExecute, hp, hh, hl, hi, hm, if_true]
              exact Or.inl hpush
          | some mem =>
            cases hmain : p.hasMain with
            | false =>
                simp only [internalExecute, hp, hh, hl, hi, hm, hmain, if_true,
                  Bool.false_eq_true, if_false]
                exact Or.inl h
            | true =>
              rw [internalExecute_setup p st mem hp hh hl hi hm hmain]
              have hset : (wavm_host_module.setWasmMemoryTop mem
                  (wavm_host_module.pushInterface st)).exceptionIdx = .None := h
              have hinv := invokeStage_slot p.mainBehavior _ hset
              rcases hI : invokeStage p.mainBehavior
                  (wavm_host_module.setWasmMemoryTop mem
                    (wavm_host_module.pushInterface st)) with ⟨o, st2⟩
              rw [hI] at hinv
              cases o with
              | completed =>
                  simpa [wavm_host_module.popInterface,
                    wavm_host_module.nullWasmMemoryTop] using hinv
              | heraEscape k m => simpa using hinv

/-- When internalExecute returns normally and the slot is set, execute
clears the slot and re-raises the captured kind with the fixed re-throw
message (wavm.cpp lines 249-274). -/
theorem execute_reraise (p : ExecParams) (st0 : HostModuleState) (r : ExecutionResult)
    (st2 : HostModuleState)
    (hIE : internalExecute p (clearExceptions st0) = (.success r, st2))
    (hne : st2.exceptionIdx ≠ .None) :
    execute p st0 =
      (.heraError st2.exceptionIdx "hera exception re-thrown", clearExceptions st2) := by
  simp [execute, hIE, hne]

/-- C10: in every execution of execute, over all collaborator outcomes
and all initial states, the Pending Exception Slot only ever ends an
internalExecute run holding None, InvalidMemoryAccess (written by the
finish/revert adapters) or VMTrap (written by the engine-trap handler
when the slot is still None); consequently the re-raise switch of
execute (wavm.cpp lines 254-273) can only fire its InvalidMemoryAccess
or VMTrap branches, and its branches for the other declared kinds are
unreachable. -/
theorem slot_only_none_IMA_VMTrap (p : ExecParams) (st0 : HostModuleState) :
    ((internalExecute p (clearExceptions st0)).2.exceptionIdx = .None ∨
     (internalExecute p (clearExceptions st0)).2.exceptionIdx = .InvalidMemoryAccess ∨
     (internalExecute p (clearExceptions st0)).2.exceptionIdx = .VMTrap) ∧
    (∀ r, (internalExecute p (clearExceptions st0)).1 = .success r →
      (internalExecute p (clearExceptions st0)).2.exceptionIdx ≠ .None →
      (execute p st0).1 =
          .heraError ((internalExecute p (clearExceptions st0)).2.exceptionIdx)
            "hera exception re-thrown" ∧
      ((internalExecute p (clearExceptions st0)).2.exceptionIdx = .InvalidMemoryAccess ∨
       (internalExecute p (clearExceptions st0)).2.exceptionIdx = .VMTrap)) := by
  have hrange := internalExecute_slot p (clearExceptions st0) rfl
  refine ⟨hrange, ?_⟩
  intro r hr hne
  have hIE : internalExecute p (clearExceptions st0) =
      (ExecOutcome.success r, (internalExecute p (clearExceptions st0)).2) := by
    rw [← hr]
  refine ⟨?_, ?_⟩
  · rw [execute_reraise p st0 r ((internalExecute p (clearExceptions st0)).2) hIE hne]
  · rcases hrange with h1 | h1 | h1
    · exact absurd h1 hne
    · exact Or.inl h1
    · exact Or.inr h1

/-- Witness for slot_only_none_IMA_VMTrap at the finish-raises-
InvalidMemoryAccess invocation. -/
theorem slot_only_none_IMA_VMTrap_witness :
    (execute pFinishIMA emptyHostState).1 =
        .heraError ((internalExecute pFinishIMA (clearExceptions emptyHostState)).2.exceptionIdx)
          "hera exception re-thrown" ∧
    ((internalExecute pFinishIMA (clearExceptions emptyHostState)).2.exceptionIdx
        = .InvalidMemoryAccess ∨
     (internalExecute pFinishIMA (clearExceptions emptyHostState)).2.exceptionIdx
        = .VMTrap) :=
  (slot_only_none_IMA_VMTrap pFinishIMA emptyHostState).2 {} (by decide) (by decide)

/-- C1: for every invocation whose main reaches a finish (or revert)
call raising InvalidMemoryAccess, the bridge writes the kind into the
Pending Exception Slot, clears the active memory handle, forces an
engine trap (so the invoke stage completes through the trap handler
without overwriting the slot), teardown completes (the stack is restored
and the slot is cleared), and execute surfaces the InvalidMemoryAccess
error, not VMTrap. -/
theorem finish_IMA_bridged_and_rethrown (p : ExecParams) (st0 : HostModuleState)
    (mem : MemoryInstance) (msg : String)
    (hp : p.parse = .ok) (hh : p.hostModuleOk = true) (hl : p.linkOk = true)
    (hi : p.instantiateOk = true) (hm : p.memoryExport = some mem)
    (hmain : p.hasMain = true) (hc : CapturesIMA p.mainBehavior msg) :
    ((invokeStage p.mainBehavior
        (wavm_host_module.setWasmMemoryTop mem
          (wavm_host_module.pushInterface (clearExceptions st0)))).2.exceptionIdx
        = .InvalidMemoryAccess) ∧
    ((invokeStage p.mainBehavior
        (wavm_host_module.setWasmMemoryTop mem
          (wavm_host_module.pushInterface (clearExceptions st0)))).2.exceptionString
        = msg) ∧
    ((invokeStage p.mainBehavior
        (wavm_host_module.setWasmMemoryTop mem
          (wavm_host_module.pushInterface (clearExceptions st0)))).2.interface.head?
        = some { wasmMemory := none }) ∧
    (execute p st0).2.interface = st0.interface ∧
    (execute p st0).2.exceptionIdx = .None ∧
    (execute p st0).1 = .heraError .InvalidMemoryAccess "hera exception re-thrown" := by
  have hrm := runMain_capturesIMA p.mainBehavior msg hc
    (wavm_host_module.setWasmMemoryTop mem
      (wavm_host_module.pushInterface (clearExceptions st0)))
  have hinv : invokeStage p.mainBehavior
      (wavm_host_module.setWasmMemoryTop mem
        (wavm_host_module.pushInterface (clearExceptions st0))) =
      (.completed, wavm_host_module.nullWasmMemoryTop
        { wavm_host_module.setWasmMemoryTop mem
            (wavm_host_module.pushInterface (clearExceptions st0)) with
          exceptionIdx := .InvalidMemoryAccess, exceptionString := msg }) := by
    simp [invokeStage, hrm, wavm_host_module.nullWasmMemoryTop]
  have hIE := internalExecute_setup p (clearExceptions st0) mem hp hh hl hi hm hmain
  rw [hinv] at hIE
  refine ⟨?_, ?_, ?_, ?_, ?_, ?_⟩
  · rw [hinv]
    rfl
  · rw [hinv]
    rfl
  · rw [hinv]
    simp [wavm_host_module.nullWasmMemoryTop, wavm_host_module.setWasmMemoryTop,
      wavm_host_module.pushInterface]
  · simp only [execute, hIE]
    simp [wavm_host_module.popInterface, wavm_host_module.nullWasmMemoryTop,
      wavm_host_module.setWasmMemoryTop, wavm_host_module.pushInterface,
      clearExceptions]
  · simp only [execute, hIE]
    simp [wavm_host_module.popInterface, wavm_host_module.nullWasmMemoryTop,
      clearExceptions]
  · simp only [execute, hIE]
    simp [wavm_host_module.popInterface, wavm_host_module.nullWasmMemoryTop,
      clearExceptions]

/-- Witness for finish_IMA_bridged_and_rethrown at the concrete
invocation pFinishIMA. -/
theorem finish_IMA_bridged_and_rethrown_witness :
    ((invokeStage pFinishIMA.mainBehavior
        (wavm_host_module.setWasmMemoryTop { numPages := 1, data := [] }
          (wavm_host_module.pushInterface (clearExceptions emptyHostState)))).2.exceptionIdx
        = .InvalidMemoryAccess) ∧
    ((invokeStage pFinishIMA.mainBehavior
        (wavm_host_module.setWasmMemoryTop { numPages := 1, data := [] }
          (wavm_host_module.pushInterface (clearExceptions emptyHostState)))).2.exceptionString
        = "boom") ∧
    ((invokeStage pFinishIMA.mainBehavior
        (wavm_host_module.setWasmMemoryTop { numPages := 1, data := [] }
          (wavm_host_module.pushInterface (clearExceptions emptyHostState)))).2.interface.head?
        = some { wasmMemory := none }) ∧
    (execute pFinishIMA emptyHostState).2.interface = emptyHostState.interface ∧
    (execute pFinishIMA emptyHostState).2.exceptionIdx = .None ∧
    (execute pFinishIMA emptyHostState).1 =
        .heraError .InvalidMemoryAccess "hera exception re-thrown" :=
  finish_IMA_bridged_and_rethrown pFinishIMA emptyHostState { numPages := 1, data := [] }
    "boom" rfl rfl rfl rfl rfl rfl (CapturesIMA.finishHere "boom" .returns)

/-- A host call that does not force an engine trap leaves the state
unchanged. -/
theorem runHostCall_state (c : HostCall) (st : HostModuleState)
    (h : (wavm_host_module.runHostCall c st).1 ≠ .wavmTrap) :
    (wavm_host_module.runHostCall c st).2 = st := by
  cases c <;> rename_i s <;> cases s
  case finish.throws k m =>
    by_cases hk : k = HeraExceptionsEnum.InvalidMemoryAccess
    · exact absurd (by simp [wavm_host_module.runHostCall, wavm_host_module.finish, hk]) h
    · simp [wavm_host_module.runHostCall, wavm_host_module.finish, hk]
  case revert.throws k m =>
    by_cases hk : k = HeraExceptionsEnum.InvalidMemoryAccess
    · exact absurd (by simp [wavm_host_module.runHostCall, wavm_host_module.revert, hk]) h
    · simp [wavm_host_module.runHostCall, wavm_host_module.revert, hk]
  all_goals rfl

/-- If running main ends with a hera exception escaping natively, the
state is exactly the state main started from: nothing was captured,
nothing was cleared. -/
theorem runMain_heraThrown (mb : MainBehavior) (st : HostModuleState)
    (k : HeraExceptionsEnum) (m : String)
    (h : (runMain mb st).1 = .heraThrown k m) :
    (runMain mb st).2 = st := by
  induction mb generalizing st with
  | returns => exact absurd h (by simp [runMain])
  | trapsInEngine => exact absurd h (by simp [runMain])
  | callsHost c rest ih =>
      rcases hc : wavm_host_module.runHostCall c st with ⟨o, st1⟩
      have hst : o ≠ .wavmTrap → st1 = st := by
        intro ho
        have := runHostCall_state c st
        rw [hc] at this
        exact this ho
      cases o with
      | continued =>
          have heq : runMain (.callsHost c rest) st = runMain rest st1 := by
            simp [runMain, hc]
          rw [heq] at h ⊢
          rw [hst (by simp)] at h ⊢
          exact ih st h
      | wavmTrap =>
          have heq : runMain (.callsHost c rest) st = (.wavmTrap, st1) := by
            simp [runMain, hc]
          rw [heq] at h
          exact absurd h (by simp)
      | heraThrown k2 m2 =>
          have heq : runMain (.callsHost c rest) st = (.heraThrown k2 m2, st1) := by
            simp [runMain, hc]
          rw [heq]
          exact hst (by simp)

/-- C2: at the failing input (malformed bytecode), execute surfaces
ContractValidationFailure with the slot left clear, as the claim says,
but the Reentrancy Context Stack push performed at the start of
internalExecute is NOT matched by a pop: the exception thrown at the
parse stage escapes internalExecute before the teardown at wavm.cpp
lines 376-378 runs, so a top-level invocation ends with one leaked stack
entry instead of an empty stack. -/
theorem parse_failure_skips_teardown :
    (execute pMalformed emptyHostState).1 =
        .heraError .ContractValidationFailure "Failed to deserialise contract: unexpected end" ∧
    (execute pMalformed emptyHostState).2.exceptionIdx = .None ∧
    (execute pMalformed emptyHostState).2.interface.length = 1 ∧
    (execute pMalformed emptyHostState).2.interface.length ≠ 0 := by
  refine ⟨rfl, rfl, rfl, by decide⟩

/-- C3 counterexample: the invoke stage ends in a forced trap with the
slot holding InvalidMemoryAccess and the captured message "oob revert",
but execute surfaces the fixed re-throw message, not the captured
message: the claim that the captured kind AND message are surfaced is
false. -/
theorem captured_message_not_surfaced :
    ((invokeStage pRevertIMA.mainBehavior
        (wavm_host_module.setWasmMemoryTop { numPages := 1, data := [] }
          (wavm_host_module.pushInterface (clearExceptions emptyHostState)))).2.exceptionString
        = "oob revert") ∧
    (execute pRevertIMA emptyHostState).1 =
        .heraError .InvalidMemoryAccess "hera exception re-thrown" ∧
    ("hera exception re-thrown" : String) ≠ "oob revert" := by
  refine ⟨rfl, rfl, by decide⟩

/-- C3 amended: when the invoke stage ends in an engine-level trap, the
error kind execute surfaces is VMTrap if the slot is clear at that
moment and the captured kind otherwise; in both cases the surfaced
message is the fixed re-throw message, the captured message being
discarded by the re-raise switch. -/
theorem trap_slot_classification (p : ExecParams) (st0 : HostModuleState)
    (mem : MemoryInstance)
    (hp : p.parse = .ok) (hh : p.hostModuleOk = true) (hl : p.linkOk = true)
    (hi : p.instantiateOk = true) (hm : p.memoryExport = some mem)
    (hmain : p.hasMain = true)
    (htrap : (runMain p.mainBehavior
        (wavm_host_module.setWasmMemoryTop mem
          (wavm_host_module.pushInterface (clearExceptions st0)))).1 = .wavmTrap) :
    (execute p st0).1 =
      .heraError
        (if (runMain p.mainBehavior
              (wavm_host_module.setWasmMemoryTop mem
                (wavm_host_module.pushInterface (clearExceptions st0)))).2.exceptionIdx
            = HeraExceptionsEnum.None
         then HeraExceptionsEnum.VMTrap
         else (runMain p.mainBehavior
              (wavm_host_module.setWasmMemoryTop mem
                (wavm_host_module.pushInterface (clearExceptions st0)))).2.exceptionIdx)
        "hera exception re-thrown" := by
  have hIE := internalExecute_setup p (clearExceptions st0) mem hp hh hl hi hm hmain
  rcases hr : runMain p.mainBehavior
      (wavm_host_module.setWasmMemoryTop mem
        (wavm_host_module.pushInterface (clearExceptions st0))) with ⟨o, st1⟩
  rw [hr] at htrap
  simp at htrap
  subst htrap
  by_cases hslot : st1.exceptionIdx = .None
  · have hinv : invokeStage p.mainBehavior
        (wavm_host_module.setWasmMemoryTop mem
          (wavm_host_module.pushInterface (clearExceptions st0))) =
        (.completed, { st1 with exceptionIdx := .VMTrap }) := by
      simp [invokeStage, hr, hslot]
    rw [hinv] at hIE
    have hre := execute_reraise p st0 p.eeiResult
      (wavm_host_module.popInterface
        (wavm_host_module.nullWasmMemoryTop { st1 with exceptionIdx := .VMTrap }))
      (by rw [hIE]) (by simp [wavm_host_module.popInterface, wavm_host_module.nullWasmMemoryTop])
    rw [hre]
    simp [wavm_host_module.popInterface, wavm_host_module.nullWasmMemoryTop, hslot]
  · have hinv : invokeStage p.mainBehavior
        (wavm_host_module.setWasmMemoryTop mem
          (wavm_host_module.pushInterface (clearExceptions st0))) =
        (.completed, st1) := by
      simp [invokeStage, hr, hslot]
    rw [hinv] at hIE
    have hre := execute_reraise p st0 p.eeiResult
      (wavm_host_module.popInterface (wavm_host_module.nullWasmMemoryTop st1))
      (by rw [hIE])
      (by simpa [wavm_host_module.popInterface, wavm_host_module.nullWasmMemoryTop] using hslot)
    rw [hre]
    simp [wavm_host_module.popInterface, wavm_host_module.nullWasmMemoryTop, hslot]

/-- Witness for trap_slot_classification at the invocation whose module
code traps in the engine with a clear slot. -/
theorem trap_slot_classification_witness :
    (execute pEngineTrap emptyHostState).1 =
      .heraError
        (if (runMain pEngineTrap.mainBehavior
              (wavm_host_module.setWasmMemoryTop { numPages := 1, data := [] }
                (wavm_host_module.pushInterface (clearExceptions emptyHostState)))).2.exceptionIdx
            = HeraExceptionsEnum.None
         then HeraExceptionsEnum.VMTrap
         else (runMain pEngineTrap.mainBehavior
              (wavm_host_module.setWasmMemoryTop { numPages := 1, data := [] }
                (wavm_host_module.pushInterface (clearExceptions emptyHostState)))).2.exceptionIdx)
        "hera exception re-thrown" :=
  trap_slot_classification pEngineTrap emptyHostState { numPages := 1, data := [] }
    rfl rfl rfl rfl rfl rfl rfl

/-- C4 counterexample: when useGas raises OutOfGas, the error is not
translated into a captured error plus a forced trap: it propagates
natively (execute surfaces it with the EEI's own message, not the
re-throw message), the slot is never written, and the native unwind even
skips teardown, leaking the pushed stack entry. -/
theorem useGas_outOfGas_not_bridged :
    (execute pOutOfGas emptyHostState).1 = .heraError .OutOfGas "Ran out of gas" ∧
    (execute pOutOfGas emptyHostState).2.exceptionIdx = .None ∧
    (execute pOutOfGas emptyHostState).2.interface.length = 1 := by
  refine ⟨rfl, rfl, rfl⟩

/-- A host call whose EEI operation throws and whose adapter is not
finish or revert lets the exception escape with the state unchanged:
the twelve plain adapters have no try/catch. -/
theorem runHostCall_escape (c : HostCall) (st : HostModuleState)
    (k : HeraExceptionsEnum) (msg : String)
    (hsig : c.sig = .throws k msg) (hnf : c.isFinishOrRevert = false) :
    wavm_host_module.runHostCall c st = (.heraThrown k msg, st) := by
  cases c <;> simp_all [HostCall.sig, HostCall.isFinishOrRevert,
    wavm_host_module.runHostCall, wavm_host_module.plainCall]

/-- Running a main behavior that reaches a host call whose error escapes
the adapter natively ends with that hera exception escaping and the
state exactly as it was: no slot write, no handle clearing, no forced
trap. -/
theorem runMain_escapesNatively (mb : MainBehavior) (k : HeraExceptionsEnum)
    (msg : String) (h : EscapesNatively mb k msg) (st : HostModuleState) :
    runMain mb st = (.heraThrown k msg, st) := by
  induction h generalizing st with
  | plainHere c k msg rest hsig hnf =>
      simp [runMain, runHostCall_escape c st k msg hsig hnf]
  | finishHere k msg rest hk =>
      simp [runMain, wavm_host_module.runHostCall, wavm_host_module.finish, hk]
  | revertHere k msg rest hk =>
      simp [runMain, wavm_host_module.runHostCall, wavm_host_module.revert, hk]
  | step c rest k msg hret _ ih =>
      rw [show runMain (.callsHost c rest) st = runMain rest st by
        simp [runMain, runHostCall_ret c st hret]]
      exact ih st

/-- C4 amended: only the finish and revert adapters translate an
Environment Interface error through the Exception Bridge, and only for
InvalidMemoryAccess; an error of any kind raised under any of the twelve
other adapters (useGas, storageStore, ...), and a non-InvalidMemoryAccess
error raised under finish or revert, escapes natively through the
engine's control flow (hk excludes the benign EndExecution unwind, which
is not an error): execute surfaces the EEI's own kind and message, the
slot stays clear, no trap is forced, and the stack entry pushed for the
invocation is not popped. -/
theorem adapter_errors_escape_natively (p : ExecParams) (st0 : HostModuleState)
    (mem : MemoryInstance) (k : HeraExceptionsEnum) (msg : String)
    (hp : p.parse = .ok) (hh : p.hostModuleOk = true) (hl : p.linkOk = true)
    (hi : p.instantiateOk = true) (hm : p.memoryExport = some mem)
    (hmain : p.hasMain = true)
    (hesc : EscapesNatively p.mainBehavior k msg)
    (hk : k ≠ .EndExecution) :
    (execute p st0).1 = .heraError k msg ∧
    (execute p st0).2.exceptionIdx = .None ∧
    (execute p st0).2.interface.length = st0.interface.length + 1 := by
  have hIE := internalExecute_setup p (clearExceptions st0) mem hp hh hl hi hm hmain
  have hrm := runMain_escapesNatively p.mainBehavior k msg hesc
    (wavm_host_module.setWasmMemoryTop mem
      (wavm_host_module.pushInterface (clearExceptions st0)))
  have hinv : invokeStage p.mainBehavior
      (wavm_host_module.setWasmMemoryTop mem
        (wavm_host_module.pushInterface (clearExceptions st0))) =
      (.heraEscape k msg,
        wavm_host_module.setWasmMemoryTop mem
          (wavm_host_module.pushInterface (clearExceptions st0))) := by
    simp [invokeStage, hrm, hk]
  rw [hinv] at hIE
  have hex : execute p st0 =
      (.heraError k msg,
        wavm_host_module.setWasmMemoryTop mem
          (wavm_host_module.pushInterface (clearExceptions st0))) := by
    simp [execute, hIE]
  rw [hex]
  refine ⟨rfl, rfl, ?_⟩
  simp [wavm_host_module.setWasmMemoryTop, wavm_host_module.pushInterface, clearExceptions]

/-- Witness for adapter_errors_escape_natively at the concrete
out-of-gas invocation (useGas, a plain adapter, raising OutOfGas). -/
theorem adapter_errors_escape_natively_witness :
    (execute pOutOfGas emptyHostState).1 = .heraError .OutOfGas "Ran out of gas" ∧
    (execute pOutOfGas emptyHostState).2.exceptionIdx = .None ∧
    (execute pOutOfGas emptyHostState).2.interface.length = emptyHostState.interface.length + 1 :=
  adapter_errors_escape_natively pOutOfGas emptyHostState
    { numPages := 1, data := [] } .OutOfGas "Ran out of gas"
    rfl rfl rfl rfl rfl rfl
    (EscapesNatively.plainHere (.useGas (.throws .OutOfGas "Ran out of gas"))
      .OutOfGas "Ran out of gas" .returns rfl rfl)
    (by decide)

/-- C5: every parse failure, whether a serialization error, a validation
error or the allocation failure the parser can hit, is surfaced by
execute as a ContractValidationFailure error, not a crash and not an
uncontrolled exception of another kind. -/
theorem parse_failure_contract_validation (p : ExecParams) (st0 : HostModuleState)
    (h : p.parse ≠ .ok) :
    ∃ m, (execute p st0).1 = .heraError .ContractValidationFailure m := by
  cases hp : p.parse with
  | ok => exact absurd hp h
  | fatalSerializationException m =>
      exact ⟨"Failed to deserialise contract: " ++ m,
        by simp [execute, internalExecute, hp, ensureConditionFail]⟩
  | validationException m =>
      exact ⟨"Failed to validate contract: " ++ m,
        by simp [execute, internalExecute, hp, ensureConditionFail]⟩
  | badAlloc =>
      exact ⟨"Bug in wavm: didn't check bounds before allocation",
        by simp [execute, internalExecute, hp, ensureConditionFail]⟩

/-- Witness for parse_failure_contract_validation at the invocation with
bytecode that fails validation. -/
theorem parse_failure_contract_validation_witness :
    pInvalid.parse ≠ .ok ∧
    ∃ m, (execute pInvalid emptyHostState).1 = .heraError .ContractValidationFailure m :=
  ⟨by decide, parse_failure_contract_validation pInvalid emptyHostState (by decide)⟩

/-- C6 counterexample: with a failing link step, execute surfaces
InternalErrorException (the heraAssert at wavm.cpp line 325), which is
an internal-error-class failure, not ContractValidationFailure. -/
theorem link_failure_not_validation_class :
    (execute pLinkFail emptyHostState).1 =
        .heraError .InternalErrorException "Couldn't link contract against host module." ∧
    ∀ m, (execute pLinkFail emptyHostState).1 ≠ .heraError .ContractValidationFailure m := by
  constructor
  · rfl
  · intro m h
    have h0 : (execute pLinkFail emptyHostState).1 =
        .heraError .InternalErrorException "Couldn't link contract against host module." := rfl
    rw [h0] at h
    simp at h

/-- C6 amended: import-resolution failure is surfaced as a typed
InternalErrorException via heraAssert, an internal-error-class failure
rather than a ContractValidationFailure-class one (and not a crash). -/
theorem link_failure_internal_error (p : ExecParams) (st0 : HostModuleState)
    (hp : p.parse = .ok) (hh : p.hostModuleOk = true) (hl : p.linkOk = false) :
    (execute p st0).1 =
      .heraError .InternalErrorException "Couldn't link contract against host module." := by
  simp [execute, internalExecute, heraAssertFail, hp, hh, hl]

/-- Witness for link_failure_internal_error. -/
theorem link_failure_internal_error_witness :
    (execute pLinkFail emptyHostState).1 =
      .heraError .InternalErrorException "Couldn't link contract against host module." :=
  link_failure_internal_error pLinkFail emptyHostState rfl rfl rfl

/-- C7: at the failing input (a module that exports "main" but no
linear memory named "memory"), execute does not return
ContractValidationFailure: the null export is passed to asMemory, a
fatal engine assertion, before the "main" check is even reached. -/
theorem missing_memory_export_not_validated :
    (execute pNoMemoryExport emptyHostState).1 = .fatalAssert "asMemory: null object" ∧
    ∀ m, (execute pNoMemoryExport emptyHostState).1 ≠
        .heraError .ContractValidationFailure m := by
  constructor
  · rfl
  · intro m h
    have h0 : (execute pNoMemoryExport emptyHostState).1 =
        .fatalAssert "asMemory: null object" := rfl
    rw [h0] at h
    exact ExecOutcome.noConfusion h

/-- C8: an invocation whose invoke stage ends with the EEI's benign
EndExecution unwind (the contract called finish or revert) is treated as
a normal stop: the exception is swallowed, teardown completes, and
execute returns the accumulated result successfully, never an error. -/
theorem end_execution_is_success (p : ExecParams) (st0 : HostModuleState)
    (mem : MemoryInstance) (msg : String)
    (hp : p.parse = .ok) (hh : p.hostModuleOk = true) (hl : p.linkOk = true)
    (hi : p.instantiateOk = true) (hm : p.memoryExport = some mem)
    (hmain : p.hasMain = true)
    (hend : (runMain p.mainBehavior
        (wavm_host_module.setWasmMemoryTop mem
          (wavm_host_module.pushInterface (clearExceptions st0)))).1
        = .heraThrown .EndExecution msg) :
    (execute p st0).1 = .success p.eeiResult ∧
    (execute p st0).2.interface = st0.interface := by
  have hIE := internalExecute_setup p (clearExceptions st0) mem hp hh hl hi hm hmain
  have hstate := runMain_heraThrown p.mainBehavior
    (wavm_host_module.setWasmMemoryTop mem
      (wavm_host_module.pushInterface (clearExceptions st0))) .EndExecution msg hend
  rcases hr : runMain p.mainBehavior
      (wavm_host_module.setWasmMemoryTop mem
        (wavm_host_module.pushInterface (clearExceptions st0))) with ⟨o, st1⟩
  rw [hr] at hend hstate
  simp at hend hstate
  subst hend
  subst hstate
  have hinv : invokeStage p.mainBehavior
      (wavm_host_module.setWasmMemoryTop mem
        (wavm_host_module.pushInterface (clearExceptions st0))) =
      (.completed,
        wavm_host_module.setWasmMemoryTop mem
          (wavm_host_module.pushInterface (clearExceptions st0))) := by
    simp [invokeStage, hr]
  rw [hinv] at hIE
  have hex : execute p st0 =
      (.success p.eeiResult,
        wavm_host_module.popInterface
          (wavm_host_module.nullWasmMemoryTop
            (wavm_host_module.setWasmMemoryTop mem
              (wavm_host_module.pushInterface (clearExceptions st0))))) := by
    simp only [execute]
    rw [hIE]
    simp [wavm_host_module.popInterface, wavm_host_module.nullWasmMemoryTop,
      wavm_host_module.setWasmMemoryTop, wavm_host_module.pushInterface, clearExceptions]
  rw [hex]
  refine ⟨rfl, ?_⟩
  simp [wavm_host_module.popInterface, wavm_host_module.nullWasmMemoryTop,
    wavm_host_module.setWasmMemoryTop, wavm_host_module.pushInterface, clearExceptions]

/-- Witness for end_execution_is_success at the invocation whose finish
call signals EndExecution. -/
theorem end_execution_is_success_witness :
    (execute pEndExecution emptyHostState).1 = .success pEndExecution.eeiResult ∧
    (execute pEndExecution emptyHostState).2.interface = emptyHostState.interface :=
  end_execution_is_success pEndExecution emptyHostState { numPages := 1, data := [] }
    "executionFinished" rfl rfl rfl rfl rfl rfl rfl

/-- C9 counterexample: a memory access attempted after the handle has
been cleared is not refused: it dereferences the null handle. -/
theorem cleared_handle_not_refused :
    memoryGet none 0 = .nullDeref ∧ memoryGet none 0 ≠ .refused ∧
    memorySize none = .nullDeref ∧ memorySet none 0 0 = .nullDeref := by
  refine ⟨rfl, by decide, rfl, rfl⟩

/-- C9 amended: the Memory Bridge has no guard for a cleared handle:
every access (memorySize, memoryGet, memorySet) made with the handle
cleared dereferences the null handle (undefined behavior) rather than
refusing the access; the code instead relies on ordering, clearing the
handle only immediately before a forced trap or during teardown. -/
theorem cleared_handle_derefs_null (offset : Nat) (value : Nat) :
    memorySize none = .nullDeref ∧
    memoryGet none offset = .nullDeref ∧
    memorySet none offset value = .nullDeref :=
  ⟨rfl, rfl, rfl⟩

end hera
